import Mathlib

/-!
Verification of the Dubai Real Estate Pattern Recommender pipeline
(`src/app.py`): filter engine, quarterly aggregator, trend analyzer and
pattern matcher, embedded shallowly over exact rational arithmetic.
The percentages are numpy `float64` scalars in the source, so division by
a zero baseline does not raise: it yields `inf`, `-inf` or `nan` and the
handler keeps going. Those extended values are modelled by `PctValue`,
finite results staying exact rationals.
-/

/-- A calendar date, compared lexicographically (year, month, day). -/
structure Date where
  year : Nat
  month : Nat
  day : Nat
deriving DecidableEq, Repr

/-- Lexicographic order on dates, mirroring chronological comparison of
`instance_date` values. -/
def Date.le (a b : Date) : Prop :=
  a.year < b.year ∨ (a.year = b.year ∧
    (a.month < b.month ∨ (a.month = b.month ∧ a.day ≤ b.day)))

instance (a b : Date) : Decidable (Date.le a b) :=
  if h : a.year < b.year ∨ (a.year = b.year ∧
      (a.month < b.month ∨ (a.month = b.month ∧ a.day ≤ b.day))) then
    .isTrue h
  else
    .isFalse h

/-- One transaction row of the dataset (columns used by the pipeline). -/
structure Record where
  area_name_en : String
  property_type_en : String
  rooms_en : String
  actual_worth : ℚ
  instance_date : Date
  transaction_id : Nat
deriving DecidableEq, Repr

/-- The sidebar filter criteria: multiselect lists (empty = no
restriction), a budget ceiling, and an inclusive date range. -/
structure FilterCriteria where
  area : List String
  prop_type : List String
  bedrooms : List String
  budget : ℚ
  date_start : Date
  date_end : Date
deriving DecidableEq, Repr

/-- The filter block of the submit handler (`app.py` lines 44-52): an
`isin` mask for each non-empty multiselect, then `actual_worth <= budget`,
then the inclusive date-range mask. -/
def applyFilters (df : List Record) (c : FilterCriteria) : List Record :=
  let filtered := df
  let filtered := if c.area.isEmpty then filtered else
    filtered.filter (fun r => c.area.contains r.area_name_en)
  let filtered := if c.prop_type.isEmpty then filtered else
    filtered.filter (fun r => c.prop_type.contains r.property_type_en)
  let filtered := if c.bedrooms.isEmpty then filtered else
    filtered.filter (fun r => c.bedrooms.contains r.rooms_en)
  let filtered := filtered.filter (fun r => r.actual_worth ≤ c.budget)
  filtered.filter (fun r =>
    decide (Date.le c.date_start r.instance_date) &&
    decide (Date.le r.instance_date c.date_end))

/-- Index of the calendar quarter containing a date (pandas `freq="Q"`
grouping key): consecutive quarters get consecutive indices. -/
def quarterOf (d : Date) : Nat := d.year * 4 + (d.month - 1) / 3

/-- One row of the `grouped` frame: a quarterly bucket with the mean of
`actual_worth` and the count of `transaction_id`. -/
structure Bucket where
  quarter : Nat
  avg_price : ℚ
  volume : Nat
deriving DecidableEq, Repr

/-- The distinct quarter keys present in a record set, in chronological
order (pandas groups by the quarter key and emits groups in key order). -/
def aggKeys (rs : List Record) : List Nat :=
  List.insertionSort (· ≤ ·) ((rs.map (fun r => quarterOf r.instance_date)).dedup)

/-- The quarterly aggregation (`app.py` lines 61-64): group the filtered
rows by calendar quarter, take mean `actual_worth` and count of rows per
group; quarters with no rows yield no group at all. -/
def quarterlyAggregate (rs : List Record) : List Bucket :=
  (aggKeys rs).map (fun q =>
    let group := rs.filter (fun r => quarterOf r.instance_date == q)
    { quarter := q,
      avg_price := (group.map Record.actual_worth).sum / (group.length : ℚ),
      volume := group.length })

/-- Default bucket used only to give positional lookups a total type;
never reached when the length guards of the source hold. -/
def dfltBucket : Bucket := ⟨0, 0, 0⟩

/-- `grouped.iloc[-1]` — the last quarterly bucket. -/
def latestOf (g : List Bucket) : Bucket := g.getD (g.length - 1) dfltBucket

/-- `grouped.iloc[-2]` — the second-to-last quarterly bucket. -/
def previousOf (g : List Bucket) : Bucket := g.getD (g.length - 2) dfltBucket

/-- `grouped.iloc[-5] if len(grouped) >= 5 else previous` (`app.py`
line 71). -/
def yearAgoOf (g : List Bucket) : Bucket :=
  if 5 ≤ g.length then g.getD (g.length - 5) dfltBucket else previousOf g

/-- The value of a numpy `float64` percentage: a finite exact rational,
positive or negative infinity, or NaN. -/
inductive PctValue where
  | fin (q : ℚ)
  | inf
  | neginf
  | nan
deriving DecidableEq, Repr

/-- The percent-change formula `(new - old) / old * 100` with numpy
`float64` semantics: a zero baseline does not fault — the quotient is
`inf` for a positive numerator, `-inf` for a negative one and `nan` for
`0/0`, and multiplying by 100 preserves these. -/
def pct_change (new old : ℚ) : PctValue :=
  if old = 0 then
    if 0 < new - old then .inf
    else if new - old < 0 then .neginf
    else .nan
  else .fin ((new - old) / old * 100)

/-- `classify` (`app.py` lines 82-83): strictly positive is `"Up"`,
strictly negative is `"Down"`, exact zero is `"Flat"`. -/
def classify (value : ℚ) : String :=
  if value > 0 then "Up" else if value < 0 then "Down" else "Flat"

/-- `classify` applied to a `float64` value, following IEEE comparisons:
`inf > 0` holds (`"Up"`), `-inf < 0` holds (`"Down"`), and every
comparison with NaN is false, so NaN falls through to `"Flat"`. -/
def classifyVal : PctValue → String
  | .fin q => classify q
  | .inf => "Up"
  | .neginf => "Down"
  | .nan => "Flat"

/-- The four percentages computed by the trend block. -/
structure Trend where
  qoq_price : PctValue
  qoq_volume : PctValue
  yoy_price : PctValue
  yoy_volume : PctValue
deriving DecidableEq, Repr

/-- The trend computation (`app.py` lines 67-73): QoQ against the
second-to-last bucket, YoY against the year-ago bucket. Total: a zero
baseline yields an infinite or NaN percentage, never a fault. -/
def computeTrend (g : List Bucket) : Trend :=
  { qoq_price := pct_change (latestOf g).avg_price (previousOf g).avg_price,
    qoq_volume := pct_change ((latestOf g).volume : ℚ) ((previousOf g).volume : ℚ),
    yoy_price := pct_change (latestOf g).avg_price (yearAgoOf g).avg_price,
    yoy_volume := pct_change ((latestOf g).volume : ℚ) ((yearAgoOf g).volume : ℚ) }

/-- The dash-joined trend-signature key (`app.py` line 85). -/
def pattern_key (t : Trend) : String :=
  classifyVal t.qoq_price ++ "-" ++ classifyVal t.yoy_price ++ "-" ++
  classifyVal t.qoq_volume ++ "-" ++ classifyVal t.yoy_volume

/-- One row of `PatternMatrix.csv`. -/
structure PatternRow where
  PatternID : String
  Insight : String
  Recommendation : String
deriving DecidableEq, Repr

/-- The pattern lookup (`app.py` lines 86-93): boolean-mask equality join
on `PatternID`, taking `.values[0]` of the matches when any exist. -/
def matchPattern (patterns : List PatternRow) (key : String) : Option (String × String) :=
  match patterns.filter (fun row => row.PatternID == key) with
  | [] => none
  | row :: _ => some (row.Insight, row.Recommendation)

/-- The observable outcome of one submission. -/
inductive Outcome where
  | overCapacity
  | insufficientData (matchedCount : Nat)
  | report (matchedCount : Nat) (t : Trend) (key : String)
      (result : Option (String × String))
deriving DecidableEq, Repr

/-- The submit handler (`app.py` lines 41-101): filter, stop when more
than 300000 rows match, aggregate quarterly, and when at least two
buckets exist compute the trend and look up the pattern. -/
def runPipeline (df : List Record) (patterns : List PatternRow)
    (c : FilterCriteria) : Outcome :=
  let filtered := applyFilters df c
  if 300000 < filtered.length then .overCapacity
  else
    let grouped := quarterlyAggregate filtered
    if 2 ≤ grouped.length then
      let t := computeTrend grouped
      .report filtered.length t (pattern_key t)
        (matchPattern patterns (pattern_key t))
    else .insufficientData filtered.length

/-! ## Sample data used by the concrete witnesses -/

/-- A sample transaction in 2024 Q1. -/
def sampleRec : Record := ⟨"Marina", "Unit", "1 B/R", 100, ⟨2024, 1, 15⟩, 1⟩

/-- A sample transaction in 2024 Q2. -/
def sampleRec2 : Record := ⟨"Marina", "Unit", "1 B/R", 110, ⟨2024, 4, 15⟩, 2⟩

/-- A sample transaction with `actual_worth = 0` in 2024 Q1. -/
def sampleZeroRec : Record := ⟨"Marina", "Unit", "1 B/R", 0, ⟨2024, 1, 15⟩, 1⟩

/-- Wide-open filter criteria: no multiselect restriction, a large budget,
and a date range containing the sample transactions. -/
def sampleCriteria : FilterCriteria :=
  ⟨[], [], [], 1000000, ⟨2000, 1, 1⟩, ⟨2030, 12, 31⟩⟩

/-! ## Filter Engine -/

/-- Membership in the filtered frame, unfolded one mask at a time. -/
lemma mem_applyFilters {df : List Record} {c : FilterCriteria} {r : Record} :
    r ∈ applyFilters df c ↔
      r ∈ df ∧ (¬c.area.isEmpty → r.area_name_en ∈ c.area) ∧
      (¬c.prop_type.isEmpty → r.property_type_en ∈ c.prop_type) ∧
      (¬c.bedrooms.isEmpty → r.rooms_en ∈ c.bedrooms) ∧
      r.actual_worth ≤ c.budget ∧
      Date.le c.date_start r.instance_date ∧ Date.le r.instance_date c.date_end := by
  simp only [applyFilters]
  by_cases h1 : c.area.isEmpty <;> by_cases h2 : c.prop_type.isEmpty <;>
    by_cases h3 : c.bedrooms.isEmpty <;>
    simp [h1, h2, h3, List.mem_filter, decide_eq_true_iff, List.elem_iff,
      and_assoc] <;> tauto

/-- C1: every record retained by the filter block is a member of the input
dataset and satisfies all active predicates conjoined with AND:
set-membership for each non-empty multiselect, `actual_worth ≤ budget`
(inclusive), and the inclusive date interval. -/
theorem filter_engine_sound (df : List Record) (c : FilterCriteria) (r : Record)
    (hr : r ∈ applyFilters df c) :
    r ∈ df ∧
    (c.area ≠ [] → r.area_name_en ∈ c.area) ∧
    (c.prop_type ≠ [] → r.property_type_en ∈ c.prop_type) ∧
    (c.bedrooms ≠ [] → r.rooms_en ∈ c.bedrooms) ∧
    r.actual_worth ≤ c.budget ∧
    Date.le c.date_start r.instance_date ∧ Date.le r.instance_date c.date_end := by
  rw [mem_applyFilters] at hr
  obtain ⟨hmem, ha, hp, hb, hw, hd⟩ := hr
  refine ⟨hmem, ?_, ?_, ?_, hw, hd⟩
  · intro h; exact ha (by simpa [List.isEmpty_iff] using h)
  · intro h; exact hp (by simpa [List.isEmpty_iff] using h)
  · intro h; exact hb (by simpa [List.isEmpty_iff] using h)

/-- Witness for C1 at a concrete dataset and concrete criteria with all
three multiselects active. -/
theorem filter_engine_sound_witness :
    sampleRec ∈ [sampleRec] ∧
    (["Marina"] ≠ ([] : List String) → sampleRec.area_name_en ∈ ["Marina"]) ∧
    (["Unit"] ≠ ([] : List String) → sampleRec.property_type_en ∈ ["Unit"]) ∧
    (["1 B/R"] ≠ ([] : List String) → sampleRec.rooms_en ∈ ["1 B/R"]) ∧
    sampleRec.actual_worth ≤ (1000000 : ℚ) ∧
    Date.le ⟨2000, 1, 1⟩ sampleRec.instance_date ∧
    Date.le sampleRec.instance_date ⟨2030, 12, 31⟩ :=
  filter_engine_sound [sampleRec]
    ⟨["Marina"], ["Unit"], ["1 B/R"], 1000000, ⟨2000, 1, 1⟩, ⟨2030, 12, 31⟩⟩
    sampleRec (by decide)

/-! ## Trend classification -/

/-- C3: `classify` is total and exhaustive: every rational maps to exactly
one of `"Up"`, `"Down"`, `"Flat"`; `"Up"` iff strictly positive, `"Down"`
iff strictly negative, and exact zero is `"Flat"` with no tolerance. -/
theorem classify_trichotomy (x : ℚ) :
    (classify x = "Up" ∨ classify x = "Down" ∨ classify x = "Flat") ∧
    (classify x = "Up" ↔ 0 < x) ∧
    (classify x = "Down" ↔ x < 0) ∧
    (classify x = "Flat" ↔ x = 0) := by
  rcases lt_trichotomy x 0 with h | h | h
  · have hn : ¬(0 : ℚ) < x := not_lt.mpr h.le
    refine ⟨Or.inr (Or.inl ?_), ?_, ?_, ?_⟩ <;>
      simp [classify, h, hn, h.ne, String.ext_iff]
  · subst h
    refine ⟨Or.inr (Or.inr ?_), ?_, ?_, ?_⟩ <;>
      simp [classify, String.ext_iff]
  · refine ⟨Or.inl ?_, ?_, ?_, ?_⟩ <;>
      simp [classify, h, not_lt.mpr h.le, h.ne.symm, String.ext_iff]

/-! ## Trend Analyzer baselines -/

/-- `iloc[-1]` of a list ending in `[a, b]` is `b`. -/
lemma latestOf_append (l : List Bucket) (a b : Bucket) :
    latestOf (l ++ [a, b]) = b := by
  induction l with
  | nil => rfl
  | cons x xs ih =>
      have hlen : (x :: (xs ++ [a, b])).length - 1 = (xs ++ [a, b]).length := by
        simp
      simpa [latestOf, hlen, List.getD_cons_succ,
        List.length_append] using ih

/-- `iloc[-2]` of a list ending in `[a, b]` is `a`. -/
lemma previousOf_append (l : List Bucket) (a b : Bucket) :
    previousOf (l ++ [a, b]) = a := by
  induction l with
  | nil => rfl
  | cons x xs ih =>
      have hlen : (x :: (xs ++ [a, b])).length - 2 = (xs ++ [a, b]).length - 1 := by
        simp
      simpa [previousOf, hlen, List.getD_cons_succ, List.length_append,
        Nat.add_sub_cancel] using ih

/-- C2: on a series ending in buckets `a, b`, `latest` is `b` and
`previous` is `a`; with at least 5 buckets `year_ago` is the element at
position `len - 5`, otherwise it falls back to `previous`, and in that
fallback the YoY percentages computed by the trend block coincide with the
QoQ percentages. -/
theorem trend_baselines (g l : List Bucket) (a b : Bucket)
    (hg : g = l ++ [a, b]) :
    latestOf g = b ∧ previousOf g = a ∧
    (5 ≤ g.length → g[g.length - 5]? = some (yearAgoOf g)) ∧
    (g.length < 5 → yearAgoOf g = previousOf g ∧
      (computeTrend g).yoy_price = (computeTrend g).qoq_price ∧
      (computeTrend g).yoy_volume = (computeTrend g).qoq_volume) := by
  subst hg
  refine ⟨latestOf_append l a b, previousOf_append l a b, ?_, ?_⟩
  · intro h5
    have hlt : (l ++ [a, b]).length - 5 < (l ++ [a, b]).length := by omega
    rw [yearAgoOf, if_pos h5, List.getD_eq_getElem _ _ hlt,
      List.getElem?_eq_getElem hlt]
  · intro h5
    have hy : yearAgoOf (l ++ [a, b]) = previousOf (l ++ [a, b]) := by
      rw [yearAgoOf, if_neg (by omega)]
    exact ⟨hy, by simp [computeTrend, hy], by simp [computeTrend, hy]⟩

/-- Witness for C2 at a concrete two-bucket series. -/
theorem trend_baselines_witness :
    latestOf [⟨0, 100, 10⟩, ⟨1, 110, 8⟩] = ⟨1, 110, 8⟩ ∧
    previousOf [⟨0, 100, 10⟩, ⟨1, 110, 8⟩] = ⟨0, 100, 10⟩ ∧
    yearAgoOf [⟨0, 100, 10⟩, ⟨1, 110, 8⟩] =
      previousOf [⟨0, 100, 10⟩, ⟨1, 110, 8⟩] := by
  obtain ⟨h1, h2, _, h4⟩ :=
    trend_baselines [⟨0, 100, 10⟩, ⟨1, 110, 8⟩] [] ⟨0, 100, 10⟩ ⟨1, 110, 8⟩ rfl
  exact ⟨h1, h2, (h4 (by decide)).1⟩

/-- C4: the percent-change formula is `(new - old) / old * 100` whenever
the baseline is non-zero, and on the Scenario A series (Q1 avg 100 and
volume 10, Q2 avg 110 and volume 8) it yields QoQ price +10.0%, QoQ
volume -20.0%, classified `"Up"` and `"Down"`, the pattern key being
`"Up-Up-Down-Down"`. -/
theorem pct_change_scenarioA (q1 q2 : Nat) :
    (∀ new old : ℚ, old ≠ 0 →
      pct_change new old = .fin ((new - old) / old * 100)) ∧
    computeTrend [⟨q1, 100, 10⟩, ⟨q2, 110, 8⟩] =
      ⟨.fin 10, .fin (-20), .fin 10, .fin (-20)⟩ ∧
    classifyVal (computeTrend [⟨q1, 100, 10⟩, ⟨q2, 110, 8⟩]).qoq_price = "Up" ∧
    classifyVal (computeTrend [⟨q1, 100, 10⟩, ⟨q2, 110, 8⟩]).qoq_volume = "Down" ∧
    pattern_key (computeTrend [⟨q1, 100, 10⟩, ⟨q2, 110, 8⟩]) =
      "Up-Up-Down-Down" := by
  have hct : computeTrend [(⟨q1, 100, 10⟩ : Bucket), ⟨q2, 110, 8⟩] =
      ⟨.fin 10, .fin (-20), .fin 10, .fin (-20)⟩ := by
    norm_num [computeTrend, latestOf, previousOf, yearAgoOf, pct_change]
  have hup : classify 10 = "Up" := by norm_num [classify]
  have hdn : classify (-20) = "Down" := by norm_num [classify]
  refine ⟨?_, hct, ?_, ?_, ?_⟩
  · intro new old h
    rw [pct_change, if_neg h]
  · rw [hct]
    show classify 10 = "Up"
    exact hup
  · rw [hct]
    show classify (-20) = "Down"
    exact hdn
  · rw [hct]
    show classify 10 ++ "-" ++ classify 10 ++ "-" ++
      classify (-20) ++ "-" ++ classify (-20) = "Up-Up-Down-Down"
    rw [hup, hdn]
    decide

/-- Witness for C4: the formula instantiated at `new = 110`, `old = 100`. -/
theorem pct_change_scenarioA_witness :
    pct_change 110 100 = .fin ((110 - 100) / 100 * 100) :=
  (pct_change_scenarioA 0 1).1 110 100 (by norm_num)

/-! ## Capacity ceiling and the insufficient-data branch -/

/-- The wide-open sample criteria keep every copy of `sampleRec`. -/
lemma applyFilters_replicate (n : Nat) :
    applyFilters (List.replicate n sampleRec) sampleCriteria =
      List.replicate n sampleRec := by
  have hstep : ∀ p : Record → Bool, p sampleRec = true →
      (List.replicate n sampleRec).filter p = List.replicate n sampleRec := by
    intro p hp
    refine List.filter_eq_self.mpr ?_
    intro a ha
    rw [List.eq_of_mem_replicate ha]
    exact hp
  simp only [applyFilters, sampleCriteria, List.isEmpty_nil, if_true]
  rw [hstep _ (by decide), hstep _ (by decide)]

/-- C5: a filtered result of more than 300000 records makes the submit
handler stop with the over-capacity outcome (so neither aggregation
results nor trend metrics are reported), while a result of at most 300000
records never produces that outcome. -/
theorem over_capacity_ceiling (df : List Record) (patterns : List PatternRow)
    (c : FilterCriteria) :
    (300000 < (applyFilters df c).length →
      runPipeline df patterns c = .overCapacity) ∧
    ((applyFilters df c).length ≤ 300000 →
      runPipeline df patterns c ≠ .overCapacity) := by
  constructor
  · intro h
    rw [runPipeline, if_pos h]
  · intro h
    rw [runPipeline, if_neg (not_lt.mpr h)]
    simp only []
    split <;> simp

/-- Witness for C5: 300001 copies of a record passing wide-open criteria
trigger the over-capacity stop; the empty dataset does not. -/
theorem over_capacity_ceiling_witness :
    runPipeline (List.replicate 300001 sampleRec) [] sampleCriteria =
      .overCapacity ∧
    runPipeline [] [] sampleCriteria ≠ .overCapacity := by
  constructor
  · refine (over_capacity_ceiling _ _ _).1 ?_
    rw [applyFilters_replicate, List.length_replicate]
    omega
  · refine (over_capacity_ceiling _ _ _).2 ?_
    simp [applyFilters]

/-- C6: under the capacity ceiling, fewer than two quarterly buckets skip
the trend step entirely and report insufficient data (no percentages, no
pattern matching), while at least two buckets always compute the trend
percentages (QoQ included) and report them with the pattern lookup. -/
theorem insufficient_data_branch (df : List Record)
    (patterns : List PatternRow) (c : FilterCriteria)
    (hcap : (applyFilters df c).length ≤ 300000) :
    ((quarterlyAggregate (applyFilters df c)).length < 2 →
      runPipeline df patterns c =
        .insufficientData (applyFilters df c).length) ∧
    (2 ≤ (quarterlyAggregate (applyFilters df c)).length →
      runPipeline df patterns c =
        .report (applyFilters df c).length
          (computeTrend (quarterlyAggregate (applyFilters df c)))
          (pattern_key (computeTrend (quarterlyAggregate (applyFilters df c))))
          (matchPattern patterns
            (pattern_key (computeTrend (quarterlyAggregate (applyFilters df c)))))) := by
  constructor
  · intro h
    rw [runPipeline, if_neg (not_lt.mpr hcap), if_neg (not_le.mpr h)]
  · intro h
    rw [runPipeline, if_neg (not_lt.mpr hcap), if_pos h]

/-- Witness for C6: one record yields a single bucket and the
insufficient-data outcome; two records in different quarters yield the
full trend report. -/
theorem insufficient_data_branch_witness :
    runPipeline [sampleRec] [] sampleCriteria = .insufficientData 1 ∧
    runPipeline [sampleRec, sampleRec2] [] sampleCriteria =
      .report 2
        (computeTrend (quarterlyAggregate
          (applyFilters [sampleRec, sampleRec2] sampleCriteria)))
        (pattern_key (computeTrend (quarterlyAggregate
          (applyFilters [sampleRec, sampleRec2] sampleCriteria))))
        (matchPattern [] (pattern_key (computeTrend (quarterlyAggregate
          (applyFilters [sampleRec, sampleRec2] sampleCriteria))))) := by
  have hlen2 : (applyFilters [sampleRec, sampleRec2] sampleCriteria).length = 2 := by
    decide
  constructor
  · have h := (insufficient_data_branch [sampleRec] [] sampleCriteria
      (by decide)).1 (by decide)
    exact h.trans (by decide)
  · have h := (insufficient_data_branch [sampleRec, sampleRec2] [] sampleCriteria
      (by decide)).2 (by decide)
    rw [h, hlen2]

/-! ## Quarterly Aggregator invariants -/

/-- The emitted quarter keys are exactly the quarters with records. -/
lemma mem_aggKeys {rs : List Record} {q : Nat} :
    q ∈ aggKeys rs ↔ ∃ r ∈ rs, quarterOf r.instance_date = q := by
  rw [aggKeys, List.mem_insertionSort, List.mem_dedup, List.mem_map]

/-- Every bucket comes from a non-empty group, hence counts at least one
transaction. -/
lemma volume_pos {rs : List Record} {b : Bucket}
    (hb : b ∈ quarterlyAggregate rs) : 1 ≤ b.volume := by
  rw [quarterlyAggregate, List.mem_map] at hb
  obtain ⟨q, hq, rfl⟩ := hb
  obtain ⟨r, hr, hrq⟩ := mem_aggKeys.mp hq
  have hmem : r ∈ rs.filter (fun r => quarterOf r.instance_date == q) :=
    List.mem_filter.mpr ⟨hr, by simp [hrq]⟩
  have := List.length_pos.mpr (List.ne_nil_of_mem hmem)
  simpa using this

/-- The emitted quarter keys are strictly increasing. -/
lemma aggKeys_sorted (rs : List Record) : (aggKeys rs).Sorted (· < ·) := by
  refine List.Sorted.lt_of_le (List.sorted_insertionSort _ _) ?_
  exact (List.perm_insertionSort _ _).nodup_iff.mpr (List.nodup_dedup _)

/-- The bucket quarters are the aggregation keys. -/
lemma quarters_eq_aggKeys (rs : List Record) :
    (quarterlyAggregate rs).map Bucket.quarter = aggKeys rs := by
  rw [quarterlyAggregate, List.map_map]
  exact List.map_id _

/-- C7: the Quarterly Aggregator never emits a zero-volume bucket; every
bucket's quarter has at least one matching record, every quarter with a
matching record appears as a bucket, and the bucket sequence is in
strictly increasing (chronological) quarter order. -/
theorem quarterly_aggregator_invariants (rs : List Record) :
    (∀ b ∈ quarterlyAggregate rs,
      1 ≤ b.volume ∧ ∃ r ∈ rs, quarterOf r.instance_date = b.quarter) ∧
    (∀ q : Nat, (∃ r ∈ rs, quarterOf r.instance_date = q) →
      ∃ b ∈ quarterlyAggregate rs, b.quarter = q) ∧
    ((quarterlyAggregate rs).map Bucket.quarter).Sorted (· < ·) := by
  refine ⟨?_, ?_, ?_⟩
  · intro b hb
    refine ⟨volume_pos hb, ?_⟩
    rw [quarterlyAggregate, List.mem_map] at hb
    obtain ⟨q, hq, rfl⟩ := hb
    exact mem_aggKeys.mp hq
  · intro q hq
    refine ⟨_, List.mem_map.mpr ⟨q, mem_aggKeys.mpr hq, rfl⟩, rfl⟩
  · rw [quarters_eq_aggKeys]
    exact aggKeys_sorted rs

/-- Witness for C7 on a one-record dataset: the emitted bucket has
positive volume and carries the record's quarter. -/
theorem quarterly_aggregator_invariants_witness :
    ∃ b ∈ quarterlyAggregate [sampleRec],
      1 ≤ b.volume ∧ b.quarter = quarterOf sampleRec.instance_date := by
  obtain ⟨b, hb, hq⟩ := (quarterly_aggregator_invariants [sampleRec]).2.1
    (quarterOf sampleRec.instance_date) ⟨sampleRec, by simp, rfl⟩
  have h1 := (quarterly_aggregator_invariants [sampleRec]).1 b hb
  exact ⟨b, hb, h1.1, hq⟩

/-! ## Volume denominators -/

/-- C10: on any aggregated series with at least two buckets, the `previous`
and `year_ago` buckets each hold at least one transaction, so the volume
percent-change computations of the trend block never see a zero
denominator: both QoQ and YoY volume percentages are finite rationals. -/
theorem volume_denominator_safe (rs : List Record)
    (h : 2 ≤ (quarterlyAggregate rs).length) :
    1 ≤ (previousOf (quarterlyAggregate rs)).volume ∧
    1 ≤ (yearAgoOf (quarterlyAggregate rs)).volume ∧
    (∃ q : ℚ, pct_change ((latestOf (quarterlyAggregate rs)).volume : ℚ)
      ((previousOf (quarterlyAggregate rs)).volume : ℚ) = .fin q) ∧
    (∃ q : ℚ, pct_change ((latestOf (quarterlyAggregate rs)).volume : ℚ)
      ((yearAgoOf (quarterlyAggregate rs)).volume : ℚ) = .fin q) := by
  have hprev : previousOf (quarterlyAggregate rs) ∈ quarterlyAggregate rs := by
    have hlt : (quarterlyAggregate rs).length - 2 < (quarterlyAggregate rs).length := by
      omega
    rw [previousOf, List.getD_eq_getElem _ _ hlt]
    exact List.getElem_mem hlt
  have hyear : yearAgoOf (quarterlyAggregate rs) ∈ quarterlyAggregate rs := by
    rw [yearAgoOf]
    split
    · rename_i h5
      have hlt : (quarterlyAggregate rs).length - 5 < (quarterlyAggregate rs).length := by
        omega
      rw [List.getD_eq_getElem _ _ hlt]
      exact List.getElem_mem hlt
    · exact hprev
  have hp := volume_pos hprev
  have hy := volume_pos hyear
  have hpne : ((previousOf (quarterlyAggregate rs)).volume : ℚ) ≠ 0 :=
    Nat.cast_ne_zero.mpr (by omega)
  have hyne : ((yearAgoOf (quarterlyAggregate rs)).volume : ℚ) ≠ 0 :=
    Nat.cast_ne_zero.mpr (by omega)
  refine ⟨hp, hy, ?_, ?_⟩
  · rw [pct_change, if_neg hpne]
    exact ⟨_, rfl⟩
  · rw [pct_change, if_neg hyne]
    exact ⟨_, rfl⟩

/-- Witness for C10 on a concrete two-quarter dataset. -/
theorem volume_denominator_safe_witness :
    1 ≤ (previousOf (quarterlyAggregate [sampleRec, sampleRec2])).volume ∧
    1 ≤ (yearAgoOf (quarterlyAggregate [sampleRec, sampleRec2])).volume ∧
    (∃ q : ℚ, pct_change ((latestOf (quarterlyAggregate [sampleRec, sampleRec2])).volume : ℚ)
      ((previousOf (quarterlyAggregate [sampleRec, sampleRec2])).volume : ℚ) = .fin q) ∧
    (∃ q : ℚ, pct_change ((latestOf (quarterlyAggregate [sampleRec, sampleRec2])).volume : ℚ)
      ((yearAgoOf (quarterlyAggregate [sampleRec, sampleRec2])).volume : ℚ) = .fin q) :=
  volume_denominator_safe [sampleRec, sampleRec2] (by decide)

/-! ## Pattern Matcher -/

/-- C8: the catalog lookup is an exact-string equality join with exactly
two outcomes: when no row's `PatternID` equals the key the result is the
no-match signal `none`, and when the catalog splits as `pre ++ row :: post`
with `row` the first exact match, the result is that row's insight and
recommendation verbatim. -/
theorem pattern_matcher_exact (patterns : List PatternRow) (key : String) :
    ((∀ row ∈ patterns, row.PatternID ≠ key) →
      matchPattern patterns key = none) ∧
    (∀ (pre post : List PatternRow) (row : PatternRow),
      patterns = pre ++ row :: post → row.PatternID = key →
      (∀ r ∈ pre, r.PatternID ≠ key) →
      matchPattern patterns key = some (row.Insight, row.Recommendation)) := by
  constructor
  · intro hnone
    have hfil : patterns.filter (fun row => row.PatternID == key) = [] := by
      refine List.filter_eq_nil_iff.mpr ?_
      intro r hr
      simpa using hnone r hr
    rw [matchPattern, hfil]
  · intro pre post row hsplit hkey hpre
    subst hsplit
    have hfpre : pre.filter (fun row => row.PatternID == key) = [] := by
      refine List.filter_eq_nil_iff.mpr ?_
      intro r hr
      simpa using hpre r hr
    rw [matchPattern, List.filter_append, hfpre, List.nil_append,
      List.filter_cons_of_pos (by simpa using hkey)]

/-- Witness for C8 on a one-row catalog: the present key returns the row's
texts, an absent key returns the no-match signal. -/
theorem pattern_matcher_exact_witness :
    matchPattern [⟨"Up-Up-Up-Up", "strong market", "consider buying"⟩]
      "Up-Up-Up-Up" = some ("strong market", "consider buying") ∧
    matchPattern [⟨"Up-Up-Up-Up", "strong market", "consider buying"⟩]
      "Flat-Flat-Flat-Flat" = none := by
  constructor
  · exact (pattern_matcher_exact _ _).2 [] []
      ⟨"Up-Up-Up-Up", "strong market", "consider buying"⟩ rfl rfl
      (by intro r hr; simp at hr)
  · exact (pattern_matcher_exact _ _).1 (by decide)

/-! ## The unguarded zero baseline -/

/-- Refutation of the runtime-fault reading of the zero baseline: on the
concrete two-quarter dataset whose first-quarter average price is 0, the
unguarded `float64` division yields `inf`, the handler classifies it as
`"Up"` and the submission ends in an ordinary report — no fault occurs. -/
theorem zero_baseline_fault_counterexample :
    (previousOf (quarterlyAggregate [sampleZeroRec, sampleRec2])).avg_price = 0 ∧
    2 ≤ (quarterlyAggregate [sampleZeroRec, sampleRec2]).length ∧
    (computeTrend (quarterlyAggregate [sampleZeroRec, sampleRec2])).qoq_price =
      .inf ∧
    classifyVal (computeTrend
      (quarterlyAggregate [sampleZeroRec, sampleRec2])).qoq_price = "Up" ∧
    runPipeline [sampleZeroRec, sampleRec2] [] sampleCriteria =
      .report 2 (computeTrend (quarterlyAggregate [sampleZeroRec, sampleRec2]))
        "Up-Up-Flat-Flat" none := by
  have hagg : quarterlyAggregate [sampleZeroRec, sampleRec2] =
      [⟨8096, 0, 1⟩, ⟨8097, 110, 1⟩] := by
    norm_num [quarterlyAggregate, aggKeys, quarterOf, sampleZeroRec, sampleRec2,
      List.insertionSort, List.orderedInsert, List.filter_cons,
      List.dedup_cons_of_not_mem, List.dedup_nil]
  have hfil : applyFilters [sampleZeroRec, sampleRec2] sampleCriteria =
      [sampleZeroRec, sampleRec2] := by
    decide
  have hct : computeTrend [(⟨8096, 0, 1⟩ : Bucket), ⟨8097, 110, 1⟩] =
      ⟨.inf, .fin 0, .inf, .fin 0⟩ := by
    norm_num [computeTrend, latestOf, previousOf, yearAgoOf, pct_change]
  have hkey : pattern_key ⟨.inf, .fin 0, .inf, .fin 0⟩ = "Up-Up-Flat-Flat" := by
    decide
  refine ⟨by rw [hagg]; norm_num [previousOf], by rw [hagg]; decide, ?_, ?_, ?_⟩
  · rw [hagg, hct]
  · rw [hagg, hct]
    decide
  · rw [runPipeline, hfil]
    norm_num [hagg, hct, hkey, matchPattern]

/-- C9 (amended): the percent-change computation does not guard
`old == 0`; on any series with at least two buckets whose `previous`
average price is exactly zero, the division is still performed with
`float64` semantics and produces an infinite or NaN percentage — not a
runtime fault — which the handler then classifies like any other value
(`inf` as `"Up"`, NaN as `"Flat"`). -/
theorem zero_baseline_continues (g l : List Bucket) (a b : Bucket)
    (hg : g = l ++ [a, b]) (hz : a.avg_price = 0) :
    ((computeTrend g).qoq_price = .inf ∨ (computeTrend g).qoq_price = .neginf ∨
      (computeTrend g).qoq_price = .nan) ∧
    (0 < b.avg_price → (computeTrend g).qoq_price = .inf ∧
      classifyVal (computeTrend g).qoq_price = "Up") ∧
    (b.avg_price = 0 → (computeTrend g).qoq_price = .nan ∧
      classifyVal (computeTrend g).qoq_price = "Flat") := by
  subst hg
  have hl := latestOf_append l a b
  have hp := previousOf_append l a b
  have hq : (computeTrend (l ++ [a, b])).qoq_price =
      pct_change b.avg_price a.avg_price := by
    simp [computeTrend, hl, hp]
  rw [hq, pct_change, if_pos hz, hz, sub_zero]
  by_cases hpos : 0 < b.avg_price
  · rw [if_pos hpos]
    refine ⟨Or.inl rfl, fun _ => ⟨rfl, rfl⟩, fun hb0 => ?_⟩
    rw [hb0] at hpos
    exact absurd hpos (lt_irrefl 0)
  · by_cases hneg : b.avg_price < 0
    · rw [if_neg hpos, if_pos hneg]
      refine ⟨Or.inr (Or.inl rfl), fun hb => absurd hb hpos, fun hb0 => ?_⟩
      rw [hb0] at hneg
      exact absurd hneg (lt_irrefl 0)
    · rw [if_neg hpos, if_neg hneg]
      exact ⟨Or.inr (Or.inr rfl), fun hb => absurd hb hpos, fun _ => ⟨rfl, rfl⟩⟩

/-- Witness for the amended C9 at a concrete two-bucket series with a
zero previous average price and a positive latest average price. -/
theorem zero_baseline_continues_witness :
    (computeTrend [⟨0, 0, 1⟩, ⟨1, 110, 1⟩]).qoq_price = .inf ∧
    classifyVal (computeTrend [⟨0, 0, 1⟩, ⟨1, 110, 1⟩]).qoq_price = "Up" := by
  have h := zero_baseline_continues [⟨0, 0, 1⟩, ⟨1, 110, 1⟩] []
    ⟨0, 0, 1⟩ ⟨1, 110, 1⟩ rfl rfl
  exact h.2.1 (by norm_num)
